import Mathlib

/-!
Shallow embedding of the `utwutwb` in-memory indexed collection
(`src/utwutwb/`): condition IR, plan IR, planner, optimizer rules,
adaptive result sets (`set_ops.py`), hash/range indexes (`index.py`),
the list store (`store.py`) and the collection (`wut.py`), together with
theorems settling the frozen claims about them.

Machine integers (row ids, 64-bit counters) are modelled as `Nat`/`Int`;
none of the claims approach 2^63 so overflow is irrelevant.  Fallible
Python code (raising exceptions) is modelled with `Except PyError` or, for
mutating collection methods, with an `Option PyError × State` result: the
state component is the state after the call, mutations that happened
before an exception included, matching Python's in-place semantics.
-/

namespace Utwutwb

/-- Python exception kinds that the modelled code can raise. -/
inductive PyError where
  | valueError (msg : String)
  | typeError (msg : String)
  | assertionError
  | attributeError (msg : String)
  | keyError
  | indexError
  | stopIteration
  deriving DecidableEq, Repr

/-- Python runtime values flowing through conditions and index keys.
`vSet` is a Python set built by the `Array` matcher (modelled as the list
of its elements in construction order). -/
inductive Value where
  | vInt (n : Int)
  | vBool (b : Bool)
  | vNone
  | vSet (items : List Value)

/-- Numeric view used by Python comparisons: ints are themselves, bools are
0/1, `None` and sets are not numbers. -/
def Value.asNum : Value → Option Int
  | .vInt n => some n
  | .vBool b => some (if b then 1 else 0)
  | _ => none

mutual

/-- Python `==` on the modelled values (never raises): numbers compare by
numeric value (`True == 1`), `None` only equals `None`, sets compare by
their element lists. -/
def pyEq : Value → Value → Bool
  | .vInt a, .vInt b => a == b
  | .vInt a, .vBool b => a == (if b then 1 else 0)
  | .vBool a, .vInt b => (if a then (1 : Int) else 0) == b
  | .vBool a, .vBool b => a == b
  | .vNone, .vNone => true
  | .vSet a, .vSet b => pyEqList a b
  | _, _ => false
termination_by structural a => a

/-- Elementwise equality of the value lists backing two modelled sets. -/
def pyEqList : List Value → List Value → Bool
  | [], [] => true
  | a :: as, b :: bs => pyEq a b && pyEqList as bs
  | _, _ => false
termination_by structural a => a

end

/-- Python truthiness of the modelled values. -/
def pyTruthy : Value → Bool
  | .vInt n => n != 0
  | .vBool b => b
  | .vNone => false
  | .vSet items => !items.isEmpty

/-- Python `<`; ordering unrelated types raises `TypeError`. -/
def pyLt (a b : Value) : Except PyError Bool :=
  match a.asNum, b.asNum with
  | some x, some y => .ok (x < y)
  | _, _ => .error (.typeError "unorderable types")

/-- Python `<=`. -/
def pyLe (a b : Value) : Except PyError Bool :=
  match a.asNum, b.asNum with
  | some x, some y => .ok (x ≤ y)
  | _, _ => .error (.typeError "unorderable types")

/-- Python `>`. -/
def pyGt (a b : Value) : Except PyError Bool :=
  match a.asNum, b.asNum with
  | some x, some y => .ok (x > y)
  | _, _ => .error (.typeError "unorderable types")

/-- Python `>=`. -/
def pyGe (a b : Value) : Except PyError Bool :=
  match a.asNum, b.asNum with
  | some x, some y => .ok (x ≥ y)
  | _, _ => .error (.typeError "unorderable types")

/-- Binary operator tags of the Condition IR that the claims exercise.
Modelled from the spec (section 4.1 lists the variants; `condition.py` is
not under `src/`): the comparison, logical and membership operators.  The
evaluation of each tag follows the `Wut.BINOPS` table in `src/utwutwb/wut.py`. -/
inductive BinOpTag where
  | eq | ne | lt | le | gt | ge | andOp | orOp | inOp
  deriving DecidableEq, Repr

/-- Unary operator tags (`Not`, `Invert`) of the Condition IR. -/
inductive UnOpTag where
  | notOp | invert
  deriving DecidableEq, Repr

/-- Condition IR.  Modelled from the spec (section 4.1): `Literal`,
`Attribute`, `Array`, binary operators with left/right children, unary
operators. -/
inductive Condition where
  | lit (value : Value)
  | attr (name : String)
  | arr (items : List Condition)
  | binop (op : BinOpTag) (left right : Condition)
  | unop (op : UnOpTag) (operand : Condition)

/-- `plan.py` `Bound`: a range endpoint with inclusivity. -/
structure Bound where
  value : Value
  inclusive : Bool

/-- `plan.py` `Range`: optional left/right bounds; `Option.none` plays the
role of the `UNSET` sentinel. -/
structure Range where
  left : Option Bound := none
  right : Option Bound := none

/-- Python `==` on two `Bound`s: the attrs-generated equality compares the
`(value, inclusive)` field tuples with Python `==`. -/
def Bound.pyEqB (a b : Bound) : Bool :=
  pyEq a.value b.value && (a.inclusive == b.inclusive)

/-- `Range._combine_bounds`: keep the bound the `compare` callback selects;
an exactly-equal pair of bounds (`a == b`, value and inclusivity alike) is
merged with ANDed inclusivity. -/
def Range._combine_bounds (a b : Option Bound)
    (compare : Value → Value → Except PyError Bool) : Except PyError (Option Bound) :=
  match a, b with
  | none, _ => .ok b
  | some _, none => .ok a
  | some ba, some bb =>
    if ba.pyEqB bb then .ok (some ⟨ba.value, ba.inclusive && bb.inclusive⟩)
    else do
      let c ← compare ba.value bb.value
      if c then return a else return b

/-- `Range.combine`: intersect two ranges; `Option.none` result means the
combined range is empty (always false). -/
def Range.combine (self other : Range) : Except PyError (Option Range) := do
  let left ← Range._combine_bounds self.left other.left pyGt
  let right ← Range._combine_bounds self.right other.right pyLt
  match left, right with
  | some l, some r =>
    if l.inclusive && r.inclusive then do
      let c ← pyGt l.value r.value
      if c then return none else return some ⟨left, right⟩
    else do
      let c ← pyGe l.value r.value
      if c then return none else return some ⟨left, right⟩
  | _, _ => return some ⟨left, right⟩

/-- Plan IR (`plan.py`).  Python plan nodes hold direct references to index
objects; the embedding identifies an index by its `number` (`Index.number`,
assigned by `Wut.__init__` in declaration order), which is what grouping-by-
index-identity in `CombineRanges` keys on. -/
inductive Plan where
  | empty
  | scanFilter (condition : Condition)
  | filter (condition : Condition) (input : Plan)
  | intersect (inputs : List Plan)
  | union (inputs : List Plan)
  | difference (inputs : List Plan)
  | indexLookup (index : Nat) (value : Value)
  | indexRange (index : Nat) (range : Range)

/-! ### set_ops.py: the adaptive result-set (`EfficientSet`)

The runtime values an index bucket can hold are the Python `None`
sentinel, a bare `int` row id (what `HashIndex.add` stores via `obj.pk`),
a `Box` instance, a `list` of row ids or a `set` of row ids.  The
dispatch in `set_ops.py` distinguishes `None`, `isinstance(a, Box)`,
`type(a) == list` and asserts `type(a) == set` otherwise, so a bare `int`
is distinguishable from a `Box` and must be modelled separately. -/

/-- `Modelled from the spec:` `constants.py` is not under `src/`; section 3
of the spec gives the adaptive-set thresholds A=32 (array capacity). -/
def ARRAY_SIZE_MAX : Nat := 32

/-- `Modelled from the spec:` `constants.py` is not under `src/`; section 3
of the spec gives the downgrade hysteresis threshold S=16. -/
def SET_SIZE_MIN : Nat := 16

/-- Insert into a sorted duplicate-free list (`Int64Set.add`). -/
def i64add : List Nat → Nat → List Nat
  | [], v => [v]
  | x :: t, v => if v < x then v :: x :: t else if v = x then x :: t else x :: i64add t v

/-- Remove from the canonical set (`Int64Set.discard`). -/
def i64discard (s : List Nat) (v : Nat) : List Nat :=
  s.filter (· ≠ v)

/-- Canonicalise an element list into the sorted duplicate-free form. -/
def i64ofList (xs : List Nat) : List Nat :=
  xs.foldl i64add []

/-- `EfficientSet`: Python `None`, a bare int row id, a `Box` instance, a
list, or a set (modelled as its element list). -/
inductive ESet where
  | enone
  | eint (pk : Nat)
  | ebox (pk : Nat)
  | earr (xs : List Nat)
  | eset (xs : List Nat)
  deriving DecidableEq, Repr

/-- Is this the Python `None` sentinel? (`a is None`) -/
def ESet.isEnone : ESet → Bool
  | .enone => true
  | _ => false

namespace so

/-- `set_ops.add`.  The branches follow the source order: `a is None`,
`isinstance(a, Box)`, `type(a) == list`, else `assert type(a) == set`.
A bare `int` row id (the `eint` case) matches none of the first three
tests, so it falls into the final branch whose assertion fails. -/
def add (a : ESet) (val : Nat) : Except PyError ESet :=
  match a with
  | .enone => .ok (.eint val)
  | .ebox _ =>
    -- `a == val` calls DefaultBox.__eq__, which reads `other.pk`; the int
    -- row id has no such attribute
    .error (.attributeError "pk")
  | .earr xs =>
    if val ∈ xs then .ok (.earr xs)
    else
      let xs2 := xs ++ [val]
      if xs2.length > ARRAY_SIZE_MAX then .ok (.eset xs2) else .ok (.earr xs2)
  | .eint _ => .error .assertionError
  | .eset xs => .ok (.eset (if val ∈ xs then xs else xs ++ [val]))

/-- `set_ops.discard`; same dispatch structure as `set_ops.add`. -/
def discard (a : ESet) (val : Nat) : Except PyError ESet :=
  match a with
  | .enone => .ok .enone
  | .ebox _ => .error (.attributeError "pk")
  | .earr xs =>
    if val ∉ xs then .ok (.earr xs)
    else
      let xs2 := xs.erase val
      if xs2.length = 1 then .ok (.eint (xs2.headD 0)) else .ok (.earr xs2)
  | .eint _ => .error .assertionError
  | .eset xs =>
    let xs2 := xs.filter (· ≠ val)
    if xs2.length < SET_SIZE_MIN then .ok (.earr xs2) else .ok (.eset xs2)

/-- `set_ops.to_set`: materialise as a Python set (canonically: the sorted
list of members).  A bare `int` singleton falls into the final branch and
fails its `assert type(a) == set`. -/
def to_set (a : ESet) : Except PyError (List Nat) :=
  match a with
  | .enone => .ok []
  | .ebox pk => .ok [pk]
  | .earr xs => .ok (i64ofList xs)
  | .eint _ => .error .assertionError
  | .eset xs => .ok (i64ofList xs)

/-- `set_ops.iterate`: `None` yields nothing, a `Box` yields itself, and
every other value is handed to `yield from`; for a bare `int` singleton
that raises `TypeError` (an int is not iterable). -/
def iterate (a : ESet) : Except PyError (List Nat) :=
  match a with
  | .enone => .ok []
  | .ebox pk => .ok [pk]
  | .eint _ => .error (.typeError "int object is not iterable")
  | .earr xs => .ok xs
  | .eset xs => .ok xs

end so

/-! ### Int64Set (cykhash) and the index key maps (BTrees)

`Int64Set` is a hash set of row ids; the embedding uses its canonical
form, the sorted duplicate-free list.  A BTree is an ordered map; the
embedding keeps an association list keyed by Python `==` on values (all
claims use keys of a single comparable type, where BTree ordering and
`==` agree), which is set-equal to the BTree contents. -/

/-- Union of two canonical sets. -/
def i64union (a b : List Nat) : List Nat :=
  b.foldl i64add a

/-- Intersection of two canonical sets. -/
def i64inter (a b : List Nat) : List Nat :=
  a.filter (· ∈ b)

/-- `wut.int64set_union`: no sets gives the empty set, otherwise fold union
over the rest. -/
def int64set_union : List (List Nat) → List Nat
  | [] => []
  | s :: rest => rest.foldl i64union s

/-- `wut.int64set_intersection`: no sets gives the empty set, otherwise fold
intersection over the rest. -/
def int64set_intersection : List (List Nat) → List Nat
  | [] => []
  | s :: rest => rest.foldl i64inter s

/-- BTree lookup (`tree.get(v, None)`), keyed by Python `==`. -/
def treeGet : List (Value × ESet) → Value → Option ESet
  | [], _ => none
  | (k, b) :: t, v => if pyEq k v then some b else treeGet t v

/-- BTree upsert (`tree[v] = bucket`). -/
def treeSet : List (Value × ESet) → Value → ESet → List (Value × ESet)
  | [], v, b => [(v, b)]
  | (k, b0) :: t, v, b => if pyEq k v then (k, b) :: t else (k, b0) :: treeSet t v b

/-- BTree delete (`del tree[v]`). -/
def treeDel : List (Value × ESet) → Value → List (Value × ESet)
  | [], _ => []
  | (k, b) :: t, v => if pyEq k v then t else (k, b) :: treeDel t v

/-! ### Objects, ObjectStorage and the ListStore (`store.py`) -/

/-- An application object: its Python identity (`id(obj)`, an abstract
natural here) and its attribute dictionary. -/
structure Obj where
  oid : Nat
  attrs : List (String × Value)

/-- `getattr(obj, name)`: direct attribute access; a missing attribute
raises `AttributeError`. -/
def getattrObj (o : Obj) (name : String) : Except PyError Value :=
  match o.attrs.find? (fun p => p.1 = name) with
  | some p => .ok p.2
  | none => .error (.attributeError name)

/-- `store.ObjectStorage`: the box around an object.  `index_mem` is an
`attr.ib(init=False)` slot, unset (`none`) until `Wut.add` completes its
index loop. -/
structure ObjectStorage where
  obj : Obj
  pk : Nat
  index_mem : Option (List Value)

/-- The `ListStore._items` list.  `ListStore.get`: `self._items[pk]` (an
out-of-range index raises `IndexError`) followed by `assert item is not
None`. -/
def storeGetAt (items : List (Option ObjectStorage)) (pk : Nat) :
    Except PyError ObjectStorage :=
  match items[pk]? with
  | none => .error .indexError
  | some none => .error .assertionError
  | some (some os) => .ok os

/-- `ListStore.set`: append when `pk` is the next slot, pad with `None`
when beyond the end, then `assert self._items[pk] is None` and fill the
slot. -/
def storeSet (items : List (Option ObjectStorage)) (pk : Nat) (o : Obj) :
    Except PyError (List (Option ObjectStorage) × ObjectStorage) :=
  let storage : ObjectStorage := { obj := o, pk := pk, index_mem := none }
  if items.length = pk then .ok (items ++ [some storage], storage)
  else
    let items1 :=
      if items.length < pk then items ++ List.replicate (pk - items.length + 1) none
      else items
    match items1[pk]? with
    | some none => .ok (items1.set pk (some storage), storage)
    | _ => .error .assertionError

/-- `ListStore.delete`: `assert self._items[pk] is not None`, then clear the
slot (the list keeps its length). -/
def storeDelete (items : List (Option ObjectStorage)) (pk : Nat) :
    Except PyError (List (Option ObjectStorage)) :=
  match items[pk]? with
  | some (some _) => .ok (items.set pk none)
  | _ => .error .assertionError

/-- `ListStore.__contains__` for an `int` row id:
`(0 <= pk < len(self._items)) and (self._items[pk] is not None)`. -/
def storeContains (items : List (Option ObjectStorage)) (pk : Nat) : Bool :=
  pk < items.length && (items[pk]?.getD none).isSome

/-- `ListStore.keys`: the indices of the occupied slots, ascending. -/
def storeKeys (items : List (Option ObjectStorage)) : List Nat :=
  (items.enum.filterMap fun p => if p.2.isSome then some p.1 else none)

/-- `ListStore.clear`: overwrite every slot with `None` (length kept). -/
def storeClear (items : List (Option ObjectStorage)) : List (Option ObjectStorage) :=
  items.map fun _ => none

/-! ### Index entities (`index.py`) -/

/-- `IndexParams`.  The `key_type` field only selects the BTree flavour
(object/int64/uint64 keys); it has no bearing on any claim and is omitted. -/
structure IndexParams where
  name : String
  none_allowed : Bool := false
  unique : Bool := false
  memorize : Bool := true
  deriving DecidableEq, Repr

/-- Concrete index classes of `index.py`. -/
inductive IndexKind where
  | hash | range | inverted
  deriving DecidableEq, Repr

/-- The `NONE_ALLOWED` class variable: `True` on `HashIndex` (and therefore
`RangeIndex`), `False` on `InvertedIndex`. -/
def IndexKind.noneAllowedCV : IndexKind → Bool
  | .inverted => false
  | _ => true

/-- Mutable index storage: the BTree and the null-key set.  `noneSet` is
`none` when `__init__` did not allocate `self.__none_set` (accessing it
then raises `AttributeError`). -/
structure IndexState where
  tree : List (Value × ESet)
  noneSet : Option (List Nat)

/-- A configured index: parameters, class, the `number` assigned by
`Wut.__init__` in declaration order (the identity surrogate plan nodes
carry), the `mem_number` among memorising indexes, and its storage. -/
structure WutIndex where
  params : IndexParams
  kind : IndexKind
  number : Nat
  memNumber : Option Nat
  state : IndexState

/-- Is this Python value the `None` singleton? (`v is None`) -/
def Value.isNone : Value → Bool
  | .vNone => true
  | _ => false

/-- The `for v in val` loop body of `HashIndex.add`: route `None` keys to
the null-key set (`AttributeError` when it was never allocated), enforce
the unique constraint against a non-empty bucket, and upsert through
`set_ops.add`.  Returns the first raised error together with the index
state at that point. -/
def HashIndex.addLoop (unique : Bool) (pk : Nat) (st : IndexState) :
    List Value → Option PyError × IndexState
  | [] => (none, st)
  | v :: rest =>
    if v.isNone then
      match st.noneSet with
      | some s => HashIndex.addLoop unique pk { st with noneSet := some (i64add s pk) } rest
      | none => (some (.attributeError "_HashIndex__none_set"), st)
    else
      let dest := treeGet st.tree v
      if dest.isSome && unique then
        (some (.valueError "Unique constraint violation"), st)
      else
        match so.add (dest.getD .enone) pk with
        | .error e => (some e, st)
        | .ok dest2 =>
          HashIndex.addLoop unique pk { st with tree := treeSet st.tree v dest2 } rest

/-- The `for v in val` loop body of `HashIndex.remove` (also the removal
phase of `HashIndex.refresh`): missing buckets are skipped, emptied
buckets are deleted from the tree. -/
def HashIndex.removeLoop (pk : Nat) (st : IndexState) :
    List Value → Option PyError × IndexState
  | [] => (none, st)
  | v :: rest =>
    if v.isNone then
      match st.noneSet with
      | some s => HashIndex.removeLoop pk { st with noneSet := some (i64discard s pk) } rest
      | none => (some (.attributeError "_HashIndex__none_set"), st)
    else
      match treeGet st.tree v with
      | none => HashIndex.removeLoop pk st rest
      | some dest =>
        match so.discard dest pk with
        | .error e => (some e, st)
        | .ok dest2 =>
          if dest2.isEnone then
            HashIndex.removeLoop pk { st with tree := treeDel st.tree v } rest
          else
            HashIndex.removeLoop pk { st with tree := treeSet st.tree v dest2 } rest

/-- `HashIndex.clear`: `self.tree.clear()`, then
`if hasattr(self, '__none_set'): self.__none_set.clear()`.  Inside the
class body the attribute is stored under its name-mangled form
`_HashIndex__none_set`, while `hasattr` receives the literal string
`'__none_set'`; the test is therefore always false and the null-key set
is never cleared. -/
def HashIndex.clear (st : IndexState) : IndexState :=
  { st with tree := [] }

/-- `HashIndex.lookup`: a `None` probe returns the null-key set (an
`AttributeError` when it was never allocated); otherwise
`so.to_set(self.tree.get(val, None))`. -/
def HashIndex.lookup (st : IndexState) (v : Value) : Except PyError (List Nat) :=
  if v.isNone then
    match st.noneSet with
    | some s => .ok s
    | none => .error (.attributeError "_HashIndex__none_set")
  else
    so.to_set ((treeGet st.tree v).getD .enone)

/-- Does the key `k` pass the lower bound of a range?  `UNSET` means no
minimum; otherwise BTree `values(min..)` with `excludemin = not
inclusive`. -/
def boundOkLeft (k : Value) : Option Bound → Except PyError Bool
  | none => .ok true
  | some b => if b.inclusive then pyGe k b.value else pyGt k b.value

/-- Does the key `k` pass the upper bound of a range? -/
def boundOkRight (k : Value) : Option Bound → Except PyError Bool
  | none => .ok true
  | some b => if b.inclusive then pyLe k b.value else pyLt k b.value

/-- `RangeIndex.range`: iterate the buckets whose keys fall in the bound
window and union `so.iterate` of each into the result set. -/
def RangeIndex.rangeLoop (r : Range) : List (Value × ESet) → Except PyError (List Nat)
  | [] => .ok []
  | (k, bucket) :: rest => do
    let inL ← boundOkLeft k r.left
    let inR ← boundOkRight k r.right
    if inL && inR then do
      let elems ← so.iterate bucket
      let restSet ← RangeIndex.rangeLoop r rest
      return i64union (i64ofList elems) restSet
    else
      RangeIndex.rangeLoop r rest

/-- `RangeIndex.range` over an index state. -/
def RangeIndex.range (st : IndexState) (r : Range) : Except PyError (List Nat) :=
  RangeIndex.rangeLoop r st.tree

/-! ### The collection (`wut.py`) -/

/-- `Wut`: the collection state.  `attrs` (the computed-attribute map) is
empty in every configuration the claims consider, `parser`, `planner` and
`optimizer` are the defaults, and the store is the default `ListStore`. -/
structure Wut where
  store : List (Option ObjectStorage)
  id_to_rowid : List (Nat × Nat)
  count : Int
  rowid_counter : Nat
  indexes : List WutIndex

/-- `LLBTree` get (`id_to_rowid.get(obj_id, None)`). -/
def btGet : List (Nat × Nat) → Nat → Option Nat
  | [], _ => none
  | (k, v) :: t, key => if k = key then some v else btGet t key

/-- `LLBTree` upsert (`id_to_rowid[obj_id] = row_id`). -/
def btSet : List (Nat × Nat) → Nat → Nat → List (Nat × Nat)
  | [], k, v => [(k, v)]
  | (k0, v0) :: t, k, v => if k0 = k then (k0, v) :: t else (k0, v0) :: btSet t k v

/-- `LLBTree` delete (`del id_to_rowid[obj_id]`). -/
def btDel : List (Nat × Nat) → Nat → List (Nat × Nat)
  | [], _ => []
  | (k0, v0) :: t, k => if k0 = k then t else (k0, v0) :: btDel t k

/-- `attr_name.startswith` with the back-tick marker of computed
attributes (first-character test, kept kernel-reducible). -/
def startsWithBacktick (name : String) : Bool :=
  match name.data with
  | [] => false
  | c :: _ => c = '`'

/-- `Wut.getattr` with an `Index` item: the `memory` fast path reads the
box's memorised tuple at the index's `mem_number`; otherwise the value is
read from the object under `params.name` (a back-tick name would go
through `self.attrs`, the computed-attribute map, which is empty in every
modelled configuration, so it raises `KeyError`). -/
def Wut.getattrIdx (os : ObjectStorage) (idx : WutIndex) (memory : Bool) :
    Except PyError Value :=
  if memory && idx.params.memorize then
    match idx.memNumber, os.index_mem with
    | some mn, some mems =>
      match mems[mn]? with
      | some v => .ok v
      | none => .error .indexError
    | none, _ => .error .assertionError
    | _, none => .error (.attributeError "index_mem")
  else
    if startsWithBacktick idx.params.name then .error .keyError
    else getattrObj os.obj idx.params.name

/-- `Wut.getattr` with a string item and `memory=False` (the `Attribute`
matcher's call). -/
def Wut.getattrName (os : ObjectStorage) (name : String) : Except PyError Value :=
  if startsWithBacktick name then .error .keyError
  else getattrObj os.obj name

/-- `_extract_val`: hash and range indexes yield the one attribute value;
an inverted index yields every element of the collection-valued attribute
(`TypeError` when it is not iterable). -/
def WutIndex.extractVals (idx : WutIndex) (os : ObjectStorage) (memory : Bool) :
    Except PyError (List Value) := do
  let v ← Wut.getattrIdx os idx memory
  match idx.kind with
  | .inverted =>
    match v with
    | .vSet items => .ok items
    | _ => .error (.typeError "not iterable")
  | _ => .ok [v]

/-- `_load_val`: hash and range indexes wrap the stored value in a
singleton list; an inverted index's stored value is already the key list. -/
def WutIndex.loadVal (idx : WutIndex) (v : Value) : Except PyError (List Value) :=
  match idx.kind with
  | .inverted =>
    match v with
    | .vSet items => .ok items
    | _ => .error (.typeError "not iterable")
  | _ => .ok [v]

/-- `_store_val`: hash and range indexes assert a single key and store it
bare; an inverted index stores the key list (modelled as `vSet`). -/
def WutIndex.storeVal (idx : WutIndex) (vals : List Value) : Except PyError Value :=
  match idx.kind with
  | .inverted => .ok (.vSet vals)
  | _ =>
    match vals with
    | [v] => .ok v
    | _ => .error .assertionError

/-- `Index.add` as called from `Wut.add` (the `val` argument is always
`None` there, so the keys are freshly extracted).  Returns the raised
error if any, the index afterwards, and the storable value on success. -/
def WutIndex.add (idx : WutIndex) (os : ObjectStorage) :
    Option PyError × WutIndex × Option Value :=
  match idx.extractVals os false with
  | .error e => (some e, idx, none)
  | .ok vals =>
    match HashIndex.addLoop idx.params.unique os.pk idx.state vals with
    | (some e, st) => (some e, { idx with state := st }, none)
    | (none, st) =>
      match idx.storeVal vals with
      | .error e => (some e, { idx with state := st }, none)
      | .ok v => (none, { idx with state := st }, some v)

/-- `Index.remove`: load the remembered value when given, else re-extract
with the memory fast path enabled, and run the removal loop. -/
def WutIndex.remove (idx : WutIndex) (os : ObjectStorage) (val? : Option Value) :
    Option PyError × WutIndex :=
  match (match val? with
         | some v => idx.loadVal v
         | none => idx.extractVals os true) with
  | .error e => (some e, idx)
  | .ok vals =>
    match HashIndex.removeLoop os.pk idx.state vals with
    | (e?, st) => (e?, { idx with state := st })

/-- `Index.make_val`: compute the storable value without touching the
index. -/
def WutIndex.make_val (idx : WutIndex) (os : ObjectStorage) : Except PyError Value := do
  let vals ← idx.extractVals os false
  idx.storeVal vals

/-- `HashIndex.refresh`: `assert self.params.memorize`, set-difference the
old and new key lists (membership by Python `==`), then run the removal
statements for the dropped keys and the add statements (unique check
included) for the new ones. -/
def WutIndex.refresh (idx : WutIndex) (os : ObjectStorage) (oldV newV : Value) :
    Option PyError × WutIndex :=
  if !idx.params.memorize then (some .assertionError, idx)
  else
    match idx.loadVal oldV, idx.loadVal newV with
    | .error e, _ => (some e, idx)
    | _, .error e => (some e, idx)
    | .ok olds, .ok news =>
      let removed := olds.filter fun v => !news.any (pyEq v)
      let added := news.filter fun v => !olds.any (pyEq v)
      match HashIndex.removeLoop os.pk idx.state removed with
      | (some e, st) => (some e, { idx with state := st })
      | (none, st) =>
        match HashIndex.addLoop idx.params.unique os.pk st added with
        | (e?, st2) => (e?, { idx with state := st2 })

/-- The `for index in self._iter_indexes()` loop of `Wut.add`: each index
is updated in declaration order and the memorised values are collected;
an exception stops the loop, leaving the earlier indexes mutated. -/
def Wut.addIndexLoop (os : ObjectStorage) :
    List WutIndex → Option PyError × List WutIndex × List Value
  | [] => (none, [], [])
  | idx :: rest =>
    match WutIndex.add idx os with
    | (some e, idx', _) => (some e, idx' :: rest, [])
    | (none, idx', v?) =>
      match Wut.addIndexLoop os rest with
      | (e?, rest', vs) =>
        let vs' := if idx.params.memorize then
            (match v? with
             | some v => v :: vs
             | none => vs)
          else vs
        (e?, idx' :: rest', vs')

/-- `Wut.add`: no-op when the object identity is already known; otherwise
place the box in the store, update every index, memorise the values, and
record identity, count and the (never-decreasing) row-id counter. -/
def Wut.add (w : Wut) (o : Obj) : Option PyError × Wut :=
  if (btGet w.id_to_rowid o.oid).isSome then (none, w)
  else
    match storeSet w.store w.rowid_counter o with
    | .error e => (some e, w)
    | .ok (items1, objSto) =>
      match Wut.addIndexLoop objSto w.indexes with
      | (some e, idxs', _) => (some e, { w with store := items1, indexes := idxs' })
      | (none, idxs', imLs) =>
        let items2 := items1.set w.rowid_counter (some { objSto with index_mem := some imLs })
        (none, { w with
          store := items2,
          indexes := idxs',
          id_to_rowid := btSet w.id_to_rowid o.oid w.rowid_counter,
          rowid_counter := w.rowid_counter + 1,
          count := w.count + 1 })

/-- The index loop of `Wut.discard`: memorising indexes consume the next
remembered value (`next(index_mem)`), the others re-extract. -/
def Wut.removeIndexLoop (os : ObjectStorage) (mems : List Value) :
    List WutIndex → Option PyError × List WutIndex
  | [] => (none, [])
  | idx :: rest =>
    if idx.params.memorize then
      match mems with
      | [] => (some .stopIteration, idx :: rest)
      | m :: mrest =>
        match WutIndex.remove idx os (some m) with
        | (some e, idx') => (some e, idx' :: rest)
        | (none, idx') =>
          match Wut.removeIndexLoop os mrest rest with
          | (e?, rest') => (e?, idx' :: rest')
    else
      match WutIndex.remove idx os none with
      | (some e, idx') => (some e, idx' :: rest)
      | (none, idx') =>
        match Wut.removeIndexLoop os mems rest with
        | (e?, rest') => (e?, idx' :: rest')

/-- `Wut.discard`: no-op when the object identity is unknown; otherwise
fetch the box (`self.store.get(obj_id)` — the `ListStore` is indexed by
row id but receives the Python object id here), drop the identity
mapping, remove from every index, delete the box and decrement the
count. -/
def Wut.discard (w : Wut) (o : Obj) : Option PyError × Wut :=
  match btGet w.id_to_rowid o.oid with
  | none => (none, w)
  | some rowId =>
    match storeGetAt w.store o.oid with
    | .error e => (some e, w)
    | .ok objSto =>
      let map1 := btDel w.id_to_rowid o.oid
      match objSto.index_mem with
      | none => (some (.attributeError "index_mem"), { w with id_to_rowid := map1 })
      | some mems =>
        match Wut.removeIndexLoop objSto mems w.indexes with
        | (some e, idxs') => (some e, { w with id_to_rowid := map1, indexes := idxs' })
        | (none, idxs') =>
          match storeDelete w.store rowId with
          | .error e => (some e, { w with id_to_rowid := map1, indexes := idxs' })
          | .ok items' =>
            (none, { w with
              id_to_rowid := map1,
              indexes := idxs',
              store := items',
              count := w.count - 1 })

/-- The index loop of `Wut.refresh`: non-memorising indexes are skipped;
for the rest, compare `make_val` with the remembered value and call
`Index.refresh` only when they differ; collect the new memorised tuple. -/
def Wut.refreshIndexLoop (os : ObjectStorage) (oldMems : List Value) :
    List WutIndex → Option PyError × List WutIndex × List Value
  | [] => (none, [], [])
  | idx :: rest =>
    if !idx.params.memorize then
      match Wut.refreshIndexLoop os oldMems rest with
      | (e?, rest', vs) => (e?, idx :: rest', vs)
    else
      match oldMems with
      | [] => (some .stopIteration, idx :: rest, [])
      | oldV :: mrest =>
        match WutIndex.make_val idx os with
        | .error e => (some e, idx :: rest, [])
        | .ok newV =>
          if pyEq oldV newV then
            match Wut.refreshIndexLoop os mrest rest with
            | (e?, rest', vs) => (e?, idx :: rest', newV :: vs)
          else
            match WutIndex.refresh idx os oldV newV with
            | (some e, idx') => (some e, idx' :: rest, [])
            | (none, idx') =>
              match Wut.refreshIndexLoop os mrest rest with
              | (e?, rest', vs) => (e?, idx' :: rest', newV :: vs)

/-- `Wut.refresh`: look the object id up in `id_to_rowid`; testing
`row_id not in self.store` evaluates `0 <= row_id` inside
`ListStore.__contains__`, which raises `TypeError` when `row_id` is the
Python `None` an absent object produced.  For a present row id the box is
fetched with `self.store[obj_id]` (the store is indexed by the object id
here), the memorising indexes are refreshed, and the memorised tuple is
replaced. -/
def Wut.refresh (w : Wut) (o : Obj) : Option PyError × Wut :=
  match btGet w.id_to_rowid o.oid with
  | none =>
    (some (.typeError "not supported between instances of int and NoneType"), w)
  | some rowId =>
    if !storeContains w.store rowId then (some (.valueError "item not found"), w)
    else
      match storeGetAt w.store o.oid with
      | .error e => (some e, w)
      | .ok objSto =>
        match objSto.index_mem with
        | none => (some (.attributeError "index_mem"), w)
        | some mems =>
          match Wut.refreshIndexLoop objSto mems w.indexes with
          | (some e, idxs', _) => (some e, { w with indexes := idxs' })
          | (none, idxs', newMems) =>
            (none, { w with
              indexes := idxs',
              store := w.store.set o.oid (some { objSto with index_mem := some newMems }) })

/-- `Wut.clear`: clear the identity map, zero the count, clear every index
(`HashIndex.clear`), clear the store.  The row-id counter is deliberately
left alone. -/
def Wut.clear (w : Wut) : Wut :=
  { w with
    id_to_rowid := [],
    count := 0,
    indexes := w.indexes.map fun i => { i with state := HashIndex.clear i.state },
    store := storeClear w.store }

/-! ### Planner (`plan.py`) and optimizer (`optimize.py`) -/

/-- `Planner.plan`: `And` lowers to a binary `Intersect`, `Or` to a binary
`Union`, anything else to a `ScanFilter`. -/
def Planner.plan : Condition → Plan
  | .binop .andOp l r => .intersect [Planner.plan l, Planner.plan r]
  | .binop .orOp l r => .union [Planner.plan l, Planner.plan r]
  | c => .scanFilter c

mutual

/-- `Plan.transform`: recursively transform the children in place, then the
node itself.  The transformer may raise (`Range.combine` comparisons can),
hence the `Except`. -/
def Plan.transform (f : Plan → Except PyError Plan) : Plan → Except PyError Plan
  | .filter c inp => do f (.filter c (← Plan.transform f inp))
  | .intersect inps => do f (.intersect (← Plan.transformList f inps))
  | .union inps => do f (.union (← Plan.transformList f inps))
  | .difference inps => do f (.difference (← Plan.transformList f inps))
  | p => f p
termination_by structural p => p

def Plan.transformList (f : Plan → Except PyError Plan) :
    List Plan → Except PyError (List Plan)
  | [] => .ok []
  | p :: t => do
    let p2 ← Plan.transform f p
    let t2 ← Plan.transformList f t
    .ok (p2 :: t2)
termination_by structural l => l

end

/-- Splice the inputs of nested `Intersect` children (`MergeSetOps` on an
`Intersect`). -/
def MergeSetOps.spliceI : List Plan → List Plan
  | [] => []
  | .intersect js :: t => js ++ MergeSetOps.spliceI t
  | j :: t => j :: MergeSetOps.spliceI t

/-- Splice the inputs of nested `Union` children. -/
def MergeSetOps.spliceU : List Plan → List Plan
  | [] => []
  | .union js :: t => js ++ MergeSetOps.spliceU t
  | j :: t => j :: MergeSetOps.spliceU t

/-- Splice the inputs of nested `Difference` children. -/
def MergeSetOps.spliceD : List Plan → List Plan
  | [] => []
  | .difference js :: t => js ++ MergeSetOps.spliceD t
  | j :: t => j :: MergeSetOps.spliceD t

/-- `MergeSetOps.transform`: a `SetOp` absorbs the inputs of children of
its own concrete class. -/
def MergeSetOps.transform : Plan → Plan
  | .intersect inps => .intersect (MergeSetOps.spliceI inps)
  | .union inps => .union (MergeSetOps.spliceU inps)
  | .difference inps => .difference (MergeSetOps.spliceD inps)
  | p => p

/-- Which side of the binary condition the non-attribute operand is
(`operand is condition.left` / `operand is condition.right`). -/
inductive OperandSide where
  | left | right
  deriving DecidableEq, Repr

/-- Comparison tags `RangeIndex.COMPARISONS` can serve. -/
def BinOpTag.isComparison : BinOpTag → Bool
  | .lt | .le | .gt | .ge => true
  | _ => false

/-- `RangeIndex.INVERSE_COMPARISONS`. -/
def RangeIndex.inverseComparison : BinOpTag → BinOpTag
  | .lt => .gt
  | .gt => .lt
  | .le => .ge
  | .ge => .le
  | o => o

/-- `RangeIndex.COMPARISON_RANGES`. -/
def RangeIndex.comparisonRange : BinOpTag → Value → Range
  | .lt, v => { right := some ⟨v, false⟩ }
  | .gt, v => { left := some ⟨v, false⟩ }
  | .le, v => { right := some ⟨v, true⟩ }
  | .ge, v => { left := some ⟨v, true⟩ }
  | _, _ => {}

/-- Are all these conditions literals? -/
def allLiterals : List Condition → Bool
  | [] => true
  | .lit _ :: t => allLiterals t
  | _ => false

/-- The value of a literal condition (only applied under `allLiterals`). -/
def Condition.litValueD : Condition → Value
  | .lit v => v
  | _ => .vNone

/-- `HashIndex.match`: `Eq` against a literal becomes an `IndexLookup`;
`In` whose right side is an all-literal `Array` becomes a `Union` of
lookups. -/
def HashIndex.matchCond (idx : WutIndex) (op : BinOpTag) (operand : Condition)
    (side : OperandSide) : Option Plan :=
  match op, operand with
  | .eq, .lit v => some (.indexLookup idx.number v)
  | .inOp, .arr items =>
    if side = .right && allLiterals items then
      some (.union (items.map fun c => Plan.indexLookup idx.number c.litValueD))
    else none
  | _, _ => none

/-- `RangeIndex.match`: comparisons against a literal become an
`IndexRange` (inverting the comparator when the attribute is on the
right); everything else falls back to `HashIndex.match`. -/
def RangeIndex.matchCond (idx : WutIndex) (op : BinOpTag) (operand : Condition)
    (side : OperandSide) : Option Plan :=
  match operand with
  | .lit v =>
    if op.isComparison then
      let comparison := if side = .left then RangeIndex.inverseComparison op else op
      some (.indexRange idx.number (RangeIndex.comparisonRange comparison v))
    else HashIndex.matchCond idx op operand side
  | _ => HashIndex.matchCond idx op operand side

/-- `InvertedIndex.match`: `In` with the literal on the left becomes an
`IndexLookup`. -/
def InvertedIndex.matchCond (idx : WutIndex) (op : BinOpTag) (operand : Condition)
    (side : OperandSide) : Option Plan :=
  match op, operand, side with
  | .inOp, .lit v, .left => some (.indexLookup idx.number v)
  | _, _, _ => none

/-- Dispatch `Index.match` by concrete index class. -/
def WutIndex.matchCond (idx : WutIndex) (op : BinOpTag) (operand : Condition)
    (side : OperandSide) : Option Plan :=
  match idx.kind with
  | .hash => HashIndex.matchCond idx op operand side
  | .range => RangeIndex.matchCond idx op operand side
  | .inverted => InvertedIndex.matchCond idx op operand side

/-- `ctx.indexes.get(name)`: the declaration-ordered indexes bound to an
attribute name. -/
def Wut.indexesNamed (w : Wut) (name : String) : List WutIndex :=
  w.indexes.filter (·.params.name = name)

/-- `for idx in ctx.indexes.get(name) or []: if match: return match`. -/
def UseIndex.tryIndexes (idxs : List WutIndex) (op : BinOpTag) (operand : Condition)
    (side : OperandSide) (orig : Plan) : Plan :=
  match idxs with
  | [] => orig
  | idx :: rest =>
    match WutIndex.matchCond idx op operand side with
    | some m => m
    | none => UseIndex.tryIndexes rest op operand side orig

/-- `UseIndex.transform`: a `ScanFilter` over a binary condition with
exactly one `Attribute` side asks each index on that attribute for a
match; the first hit replaces the scan. -/
def UseIndex.transform (w : Wut) (p : Plan) : Plan :=
  match p with
  | .scanFilter (.binop op l r) =>
    match l, r with
    | .attr _, .attr _ => p
    | .attr nm, value => UseIndex.tryIndexes (w.indexesNamed nm) op value .right p
    | value, .attr nm => UseIndex.tryIndexes (w.indexesNamed nm) op value .left p
    | _, _ => p
  | q => q

/-- Append an `IndexRange`'s range to its index's group (first-occurrence
order, as a `defaultdict` preserves). -/
def CombineRanges.insertGroup (i : Nat) (r : Range) :
    List (Nat × List Range) → List (Nat × List Range)
  | [] => [(i, [r])]
  | (j, rs) :: t =>
    if i = j then (j, rs ++ [r]) :: t else (j, rs) :: CombineRanges.insertGroup i r t

/-- Partition an `Intersect`'s inputs into per-index `IndexRange` groups
and the rest, both in encounter order. -/
def CombineRanges.partitionAux (groups : List (Nat × List Range)) (others : List Plan) :
    List Plan → List (Nat × List Range) × List Plan
  | [] => (groups, others)
  | .indexRange i r :: t =>
    CombineRanges.partitionAux (CombineRanges.insertGroup i r groups) others t
  | p :: t => CombineRanges.partitionAux groups (others ++ [p]) t

/-- Fold `Range.combine` over a group; `Option.none` reports a combined
range that always evaluates to false. -/
def Range.foldCombine (r : Range) : List Range → Except PyError (Option Range)
  | [] => .ok (some r)
  | s :: t => do
    match ← r.combine s with
    | none => .ok none
    | some r2 => Range.foldCombine r2 t

/-- The per-group loop of `CombineRanges.transform`: singleton groups keep
their plan, larger groups fold into one `IndexRange`; a `none` means the
whole `Intersect` collapses to `Empty`. -/
def CombineRanges.processGroups :
    List (Nat × List Range) → Except PyError (Option (List Plan))
  | [] => .ok (some [])
  | (i, rs) :: t => do
    let plansHere : Option (List Plan) ←
      match rs with
      | [] => pure (some [])
      | [r] => pure (some [Plan.indexRange i r])
      | r :: rest => do
        match ← Range.foldCombine r rest with
        | none => pure none
        | some newR => pure (some [Plan.indexRange i newR])
    match plansHere with
    | none => .ok none
    | some ps =>
      match ← CombineRanges.processGroups t with
      | none => .ok none
      | some more => .ok (some (ps ++ more))

/-- `CombineRanges.transform` on a node. -/
def CombineRanges.transform (p : Plan) : Except PyError Plan :=
  match p with
  | .intersect inps => do
    let (groups, others) := CombineRanges.partitionAux [] [] inps
    match ← CombineRanges.processGroups groups with
    | none => .ok .empty
    | some rangePlans =>
      let inputs := rangePlans ++ others
      match inputs with
      | [only] => .ok only
      | _ => .ok (.intersect inputs)
  | q => .ok q

/-- `Modelled from the spec:` `condition.and_` lives in `condition.py`,
which is not under `src/`; section 4.4 says `CombineFilters` folds all
scan-filter conditions into one by And-ing them. -/
def and_ (c : Condition) (rest : List Condition) : Condition :=
  rest.foldl (fun a b => .binop .andOp a b) c

/-- Partition an `Intersect`'s inputs into the `ScanFilter` conditions and
the remaining plans, both in encounter order. -/
def CombineFilters.partition : List Plan → List Condition × List Plan
  | [] => ([], [])
  | .scanFilter c :: t =>
    let (fs, os) := CombineFilters.partition t
    (c :: fs, os)
  | p :: t =>
    let (fs, os) := CombineFilters.partition t
    (fs, p :: os)

/-- `CombineFilters.transform` on a node. -/
def CombineFilters.transform (p : Plan) : Plan :=
  match p with
  | .intersect inps =>
    let (fs, others) := CombineFilters.partition inps
    match fs with
    | [] => p
    | c :: crest =>
      let combined := and_ c crest
      match others with
      | [] => .scanFilter combined
      | [only] => .filter combined only
      | _ => .filter combined (.intersect others)
  | q => q

/-- The default rule chain: `MergeSetOps`, `UseIndex`, `CombineRanges`,
`CombineFilters`, each walking the tree through `Plan.transform`. -/
def Chain.run (w : Wut) (p : Plan) : Except PyError Plan := do
  let p1 ← Plan.transform (fun q => .ok (MergeSetOps.transform q)) p
  let p2 ← Plan.transform (fun q => .ok (UseIndex.transform w q)) p1
  let p3 ← Plan.transform CombineRanges.transform p2
  Plan.transform (fun q => .ok (CombineFilters.transform q)) p3

/-- `Wut.plan` (condition input; string parsing is the out-of-scope parser
adapter). -/
def Wut.plan (_w : Wut) (c : Condition) : Plan :=
  Planner.plan c

/-- `Wut.optimize`: run the default optimizer chain with the collection as
context. -/
def Wut.optimize (w : Wut) (p : Plan) : Except PyError Plan :=
  Chain.run w p

/-! ### Executor and condition matcher (`wut.py`) -/

/-- Python `in` as used by the `In` matcher: membership (by `==`) in a
materialised set; any non-container right side raises `TypeError`. -/
def pyIn (a b : Value) : Except PyError Value :=
  match b with
  | .vSet items => .ok (.vBool (items.any (pyEq a)))
  | _ => .error (.typeError "argument is not iterable")

/-- The `Wut.BINOPS` table: evaluate one binary operator on two matched
operand values.  `And`/`Or` are the table's `lambda l, r: l and r` /
`l or r` — both operands are already evaluated by `match_binop`, so there
is no short-circuiting, only Python's value-returning `and`/`or`. -/
def applyBinOp : BinOpTag → Value → Value → Except PyError Value
  | .eq, a, b => .ok (.vBool (pyEq a b))
  | .ne, a, b => .ok (.vBool (!pyEq a b))
  | .lt, a, b => do .ok (.vBool (← pyLt a b))
  | .le, a, b => do .ok (.vBool (← pyLe a b))
  | .gt, a, b => do .ok (.vBool (← pyGt a b))
  | .ge, a, b => do .ok (.vBool (← pyGe a b))
  | .andOp, a, b => .ok (if pyTruthy a then b else a)
  | .orOp, a, b => .ok (if pyTruthy a then a else b)
  | .inOp, a, b => pyIn a b

/-- The `Wut.UNARY_OPS` table: `operator.not_` and `operator.invert`. -/
def applyUnOp : UnOpTag → Value → Except PyError Value
  | .notOp, v => .ok (.vBool (!pyTruthy v))
  | .invert, v =>
    match v.asNum with
    | some n => .ok (.vInt (-(n + 1)))
    | none => .error (.typeError "bad operand type for unary invert")

mutual

/-- `Wut.match`: the interpreter over Condition IR from the `matchers`
table.  (`Array` builds a Python set of the matched items; the embedding
keeps them as the list in construction order, which only membership tests
observe.) -/
def Wut.matchCond (w : Wut) (os : ObjectStorage) : Condition → Except PyError Value
  | .lit v => .ok v
  | .attr name => Wut.getattrName os name
  | .arr items => do .ok (.vSet (← Wut.matchCondList w os items))
  | .binop op l r => do
    let lv ← Wut.matchCond w os l
    let rv ← Wut.matchCond w os r
    applyBinOp op lv rv
  | .unop op c => do applyUnOp op (← Wut.matchCond w os c)
termination_by structural c => c

/-- Match every item of an `Array` condition. -/
def Wut.matchCondList (w : Wut) (os : ObjectStorage) :
    List Condition → Except PyError (List Value)
  | [] => .ok []
  | c :: t => do .ok ((← Wut.matchCond w os c) :: (← Wut.matchCondList w os t))
termination_by structural l => l

end

/-- The filtering loop of `Wut._execute_filter`: keep the row ids whose
box (`self.store[o]`) satisfies the condition. -/
def Wut.executeFilterLoop (w : Wut) (c : Condition) : List Nat → Except PyError (List Nat)
  | [] => .ok []
  | o :: t => do
    let os ← storeGetAt w.store o
    let v ← Wut.matchCond w os c
    let rest ← Wut.executeFilterLoop w c t
    .ok (if pyTruthy v then o :: rest else rest)

/-- `Wut._execute_filter`: a `Literal` condition short-circuits to the
empty set or to the input row ids; otherwise filter through `match`. -/
def Wut._execute_filter (w : Wut) (objs : List Nat) (c : Condition) :
    Except PyError (List Nat) :=
  match c with
  | .lit v => if !pyTruthy v then .ok [] else .ok objs
  | cond => Wut.executeFilterLoop w cond objs

/-- The index object a plan node references, recovered from its assigned
number (Python plans hold the reference directly). -/
def Wut.findIndex (w : Wut) (n : Nat) : Option WutIndex :=
  w.indexes.find? (·.number = n)

mutual

/-- `Wut.execute`: dispatch through the `executors` table.  `Difference`
has no entry there, so it raises `ValueError('Unsupported plan: ...')`. -/
def Wut.execute (w : Wut) : Plan → Except PyError (List Nat)
  | .scanFilter c => w._execute_filter (storeKeys w.store) c
  | .filter c inp => do w._execute_filter (← Wut.execute w inp) c
  | .union inps => do .ok (int64set_union (← Wut.executeList w inps))
  | .intersect inps => do .ok (int64set_intersection (← Wut.executeList w inps))
  | .indexLookup n v =>
    match Wut.findIndex w n with
    | some idx => HashIndex.lookup idx.state v
    | none => .error .keyError
  | .indexRange n r =>
    match Wut.findIndex w n with
    | some idx => RangeIndex.range idx.state r
    | none => .error .keyError
  | .empty => .ok []
  | .difference _ => .error (.valueError "Unsupported plan")
termination_by structural p => p

/-- Execute every child of a set operation. -/
def Wut.executeList (w : Wut) : List Plan → Except PyError (List (List Nat))
  | [] => .ok []
  | p :: t => do .ok ((← Wut.execute w p) :: (← Wut.executeList w t))
termination_by structural l => l

end

/-- `Wut.filter`: plan, optimize, execute. -/
def Wut.filter (w : Wut) (c : Condition) : Except PyError (List Nat) := do
  let p := Wut.plan w c
  let p2 ← Wut.optimize w p
  Wut.execute w p2

/-! ### Constructing a collection (`Wut.__init__`) -/

/-- One configured index with its `number`/`mem_number` assignment. -/
def mkIndex (kind : IndexKind) (params : IndexParams) (number : Nat)
    (memNumber : Option Nat) : WutIndex :=
  { params := params, kind := kind, number := number, memNumber := memNumber,
    state := { tree := [],
               noneSet := if kind.noneAllowedCV && params.none_allowed then some [] else none } }

/-- Assign `number` (all indexes) and `mem_number` (memorising indexes) in
declaration order, as `Wut.__init__` does over `_iter_indexes()` (the
claims declare distinct attribute names, for which the grouped dict
iteration preserves declaration order). -/
def mkIndexes (n mn : Nat) : List (IndexKind × IndexParams) → List WutIndex
  | [] => []
  | (k, p) :: t =>
    mkIndex k p n (if p.memorize then some mn else none) ::
      mkIndexes (n + 1) (if p.memorize then mn + 1 else mn) t

/-- A fresh collection with the given index declarations and no objects. -/
def Wut.new (idxs : List (IndexKind × IndexParams)) : Wut :=
  { store := [], id_to_rowid := [], count := 0, rowid_counter := 0,
    indexes := mkIndexes 0 0 idxs }

/-- `Wut.update`: add each object in order; an exception from `add`
propagates out of the loop. -/
def Wut.update (w : Wut) : List Obj → Option PyError × Wut
  | [] => (none, w)
  | o :: t =>
    match Wut.add w o with
    | (some e, w') => (some e, w')
    | (none, w') => Wut.update w' t

/-! ### Concrete configurations used to settle the claims -/

/-- An empty collection with one range index on attribute `a`. -/
def wRangeA : Wut := Wut.new [(.range, { name := "a" })]

/-- An object with `a = 0` (object identity 100). -/
def objA0 : Obj := ⟨100, [("a", .vInt 0)]⟩

/-- `wRangeA` after `add(objA0)` (row id 0). -/
def wRangeA0 : Wut := (Wut.add wRangeA objA0).2

/-- `Modelled from the spec:` the SQL-like parser adapter (`parse.py`, not
under `src/`) maps the predicate string `a = 0` to
`Eq(Attribute('a'), Literal(0))` (spec section 6 grammar). -/
def cond_a_eq_0 : Condition := .binop .eq (.attr "a") (.lit (.vInt 0))

/-- The condition `a > 5 AND a >= 5`. -/
def cond_a_gt5_and_ge5 : Condition :=
  .binop .andOp (.binop .gt (.attr "a") (.lit (.vInt 5)))
    (.binop .ge (.attr "a") (.lit (.vInt 5)))

/-- Range `5 < a` (left bound exclusive). -/
def rangeGt5 : Range := { left := some ⟨.vInt 5, false⟩ }

/-- Range `5 <= a` (left bound inclusive). -/
def rangeGe5 : Range := { left := some ⟨.vInt 5, true⟩ }

/-- Two range indexes: plain on `a`, unique on `b` (declaration order
`a`, `b`, so `a` is processed first by the `Wut.add` index loop). -/
def wUnique : Wut :=
  Wut.new [(.range, { name := "a" }), (.range, { name := "b", unique := true })]

/-- First object for the unique-index scenario: `a = 0, b = 5`. -/
def objU1 : Obj := ⟨101, [("a", .vInt 0), ("b", .vInt 5)]⟩

/-- Second object, colliding on the unique index: `a = 1, b = 5`. -/
def objU2 : Obj := ⟨102, [("a", .vInt 1), ("b", .vInt 5)]⟩

/-- `wUnique` after `add(objU1)`. -/
def wUnique1 : Wut := (Wut.add wUnique objU1).2

/-- The spec scenario collection: range indexes on `a` and `b`. -/
def wScenario : Wut := Wut.new [(.range, { name := "a" }), (.range, { name := "b" })]

/-- Scenario object `O[0] = {a:0, b:59}`. -/
def objO0 : Obj := ⟨110, [("a", .vInt 0), ("b", .vInt 59)]⟩

/-- Scenario object `O[1] = {a:1, b:59}`. -/
def objO1 : Obj := ⟨111, [("a", .vInt 1), ("b", .vInt 59)]⟩

/-- Scenario object `O[2] = {a:2, b:59}`. -/
def objO2 : Obj := ⟨112, [("a", .vInt 2), ("b", .vInt 59)]⟩

/-- Scenario object `O[3] = {a:0, b:7}`. -/
def objO3 : Obj := ⟨113, [("a", .vInt 0), ("b", .vInt 7)]⟩

/-- `wScenario` after `add(objO0)`. -/
def wScenario0 : Wut := (Wut.add wScenario objO0).2

/-- An object never added to any collection (identity 130). -/
def objAbsent : Obj := ⟨130, []⟩

/-- An empty collection with a null-allowing range index on `a`. -/
def wNoneIdx : Wut := Wut.new [(.range, { name := "a", none_allowed := true })]

/-- An object whose `a` is `None` (object identity 120). -/
def objNone : Obj := ⟨120, [("a", .vNone)]⟩

/-- `wNoneIdx` after `add(objNone)`: row id 0 sits in the null-key set. -/
def wNoneIdx0 : Wut := (Wut.add wNoneIdx objNone).2

/-! ## Theorems settling the claims -/

/-- C1.  The round-trip `execute(optimize(plan(c))) = execute(plan(c))`
fails on the code: with one object `{a: 0}` under a range index on `a`
and the condition `a = 0`, the unoptimized plan executes to `{0}` while
the optimizer rewrites the scan into an `IndexLookup` whose execution
raises `AssertionError` — `HashIndex.add` stored the bare int row id `0`
as the singleton bucket, and `set_ops.to_set` only recognises `None`,
`Box` instances and lists before asserting `type(a) == set`. -/
theorem claim_C1_roundtrip_broken :
    (Wut.add wRangeA objA0).1 = none ∧
    Wut.execute wRangeA0 (Wut.plan wRangeA0 cond_a_eq_0) = .ok [0] ∧
    Wut.optimize wRangeA0 (Wut.plan wRangeA0 cond_a_eq_0) = .ok (.indexLookup 0 (.vInt 0)) ∧
    Wut.execute wRangeA0 (.indexLookup 0 (.vInt 0)) = .error .assertionError :=
  ⟨rfl, rfl, rfl, rfl⟩

/-- C2.  `Range._combine_bounds` tests full bound equality (`a == b`)
instead of value equality, so two left bounds with equal values but
different inclusivities never take the AND-of-inclusivities branch: the
comparison `a.value > b.value` is false and the second bound is returned
as-is.  Combining `5 < a` with `5 <= a` keeps the inclusive bound
(`5 <= a`) where the claim requires the AND (exclusive); consequently the
optimizer rewrites `a > 5 AND a >= 5` into the strictly weaker
`IndexRange(a, 5 <= a)`. -/
theorem claim_C2_combine_keeps_wrong_inclusivity :
    Range.combine rangeGt5 rangeGe5 = .ok (some { left := some ⟨.vInt 5, true⟩ }) ∧
    Wut.optimize wRangeA (Wut.plan wRangeA cond_a_gt5_and_ge5) =
      .ok (.indexRange 0 { left := some ⟨.vInt 5, true⟩ }) :=
  ⟨rfl, rfl⟩

/-- C3.  An `add` that hits the unique-constraint violation at index `k`
leaves partial state behind: with indexes `[RangeIndex('a'),
RangeIndex('b', unique)]` and `{a:0, b:5}` present, adding `{a:1, b:5}`
raises the unique `ValueError` at index `b`, yet afterwards index `a`
(processed first) holds the failed object's row id under key `1` and the
store still holds its box — only the identity map, the count and the
counter are untouched. -/
theorem claim_C3_add_not_atomic :
    (Wut.add wUnique objU1).1 = none ∧
    (Wut.add wUnique1 objU2).1 = some (.valueError "Unique constraint violation") ∧
    ((Wut.add wUnique1 objU2).2.indexes.map fun i => i.state.tree) =
      [[(.vInt 0, .eint 0), (.vInt 1, .eint 1)], [(.vInt 5, .eint 0)]] ∧
    (wUnique1.indexes.map fun i => i.state.tree) =
      [[(.vInt 0, .eint 0)], [(.vInt 5, .eint 0)]] ∧
    (Wut.add wUnique1 objU2).2.store.length = 2 ∧
    wUnique1.store.length = 1 :=
  ⟨rfl, rfl, rfl, rfl, rfl, rfl⟩

/-- C4.  The spec scenario `O = [{a:0,b:59}, {a:1,b:59}, {a:2,b:59},
{a:0,b:7}]` with range indexes on `a` and `b` cannot even be built:
adding `O[1]` upgrades the `b = 59` bucket from the bare-int singleton
`0` through `set_ops.add`, whose `isinstance(a, Box)` test does not
recognise the int, so its trailing `assert type(a) == set` fails and
`filter("a = 0")` is never reached. -/
theorem claim_C4_scenario_crashes :
    (Wut.add wScenario objO0).1 = none ∧
    (Wut.add wScenario0 objO1).1 = some .assertionError ∧
    (Wut.update wScenario [objO0, objO1, objO2, objO3]).1 = some .assertionError :=
  ⟨rfl, rfl, rfl⟩

/-- C5 counterexample.  Executing a concrete `Difference` plan on a fresh
collection does not return "first child minus the union of the rest"
(which would be `ok []` here): the executors table has no `Difference`
entry, so `Wut.execute` raises `ValueError('Unsupported plan')`. -/
theorem claim_C5_counterexample :
    Wut.execute (Wut.new []) (.difference [.empty, .empty]) =
      .error (.valueError "Unsupported plan") ∧
    Wut.execute (Wut.new []) (.difference [.empty, .empty]) ≠ .ok [] :=
  ⟨rfl, fun h => nomatch h⟩

/-- C5 (amended).  For every collection state and every `Difference` plan
node, `Wut.execute` rejects the plan with
`ValueError('Unsupported plan')`. -/
theorem claim_C5_difference_unsupported (w : Wut) (inputs : List Plan) :
    Wut.execute w (.difference inputs) = .error (.valueError "Unsupported plan") :=
  rfl

/-- C6.  Refreshing an object that is not in the collection raises
`TypeError`, not `ValueError('item not found')`: the absent lookup leaves
`row_id = None`, and `row_id not in self.store` evaluates `0 <= None`
inside `ListStore.__contains__`.  The state is untouched. -/
theorem claim_C6_refresh_absent_raises_typeerror (w : Wut) (o : Obj)
    (h : btGet w.id_to_rowid o.oid = none) :
    Wut.refresh w o =
      (some (.typeError "not supported between instances of int and NoneType"), w) := by
  simp [Wut.refresh, h]

/-- C6 witness: the claim's theorem applied to a fresh empty collection
and a never-added object. -/
theorem claim_C6_witness :
    Wut.refresh (Wut.new []) objAbsent =
      (some (.typeError "not supported between instances of int and NoneType"),
        Wut.new []) :=
  claim_C6_refresh_absent_raises_typeerror (Wut.new []) objAbsent rfl

/-- C7.  `clear()` empties the identity map, the count, the store and each
index tree and leaves the row-id counter alone — but it does not empty
the null-key sets: `HashIndex.clear` guards the reset with
`hasattr(self, '__none_set')`, which never sees the name-mangled
`_HashIndex__none_set` attribute, so after `clear` the null-key set still
holds row id 0. -/
theorem claim_C7_clear_misses_none_set :
    (Wut.add wNoneIdx objNone).1 = none ∧
    (wNoneIdx0.indexes.map fun i => i.state.noneSet) = [some [0]] ∧
    ((Wut.clear wNoneIdx0).indexes.map fun i => i.state.noneSet) = [some [0]] ∧
    ((Wut.clear wNoneIdx0).indexes.map fun i => i.state.tree) = [[]] ∧
    (Wut.clear wNoneIdx0).id_to_rowid = [] ∧
    (Wut.clear wNoneIdx0).count = 0 ∧
    (Wut.clear wNoneIdx0).store = [none] ∧
    (Wut.clear wNoneIdx0).rowid_counter = 1 :=
  ⟨rfl, rfl, rfl, rfl, rfl, rfl, rfl, rfl⟩

/-- C8.  `add` of an already-present object and `discard` of an absent
object return silently with the entire state — store, identity map,
count, counter and every index — exactly as before: both methods return
before any mutation. -/
theorem claim_C8_add_discard_noop (w : Wut) (o : Obj) :
    ((btGet w.id_to_rowid o.oid).isSome → Wut.add w o = (none, w)) ∧
    (btGet w.id_to_rowid o.oid = none → Wut.discard w o = (none, w)) := by
  constructor
  · intro h
    simp [Wut.add, h]
  · intro h
    simp [Wut.discard, h]

/-- C8 witness: on the one-object collection `wRangeA0`, re-adding the
present `objA0` and discarding the absent `objAbsent` both leave the
state untouched. -/
theorem claim_C8_witness :
    Wut.add wRangeA0 objA0 = (none, wRangeA0) ∧
    Wut.discard wRangeA0 objAbsent = (none, wRangeA0) :=
  ⟨(claim_C8_add_discard_noop wRangeA0 objA0).1 rfl,
   (claim_C8_add_discard_noop wRangeA0 objAbsent).2 rfl⟩

/-- C9.  For every collection state, executing `ScanFilter(Literal(true))`
returns the full current row-id set and `ScanFilter(Literal(false))`
returns the empty set, and the full `filter` pipeline (plan, optimize,
execute) agrees on both literals. -/
theorem claim_C9_literal_scanfilter (w : Wut) :
    Wut.execute w (.scanFilter (.lit (.vBool true))) = .ok (storeKeys w.store) ∧
    Wut.execute w (.scanFilter (.lit (.vBool false))) = .ok [] ∧
    Wut.filter w (.lit (.vBool true)) = .ok (storeKeys w.store) ∧
    Wut.filter w (.lit (.vBool false)) = .ok [] :=
  ⟨rfl, rfl, rfl, rfl⟩

/-- C10.  The trailing `assert type(a) == set` in `set_ops.add` is not
valid for index buckets: `HashIndex.add` stores the bare int row id `0`
as a singleton bucket, and adding the distinct row id `1` to it falls
past the `isinstance(a, Box)` test (an int is not a `Box`) into the
final branch, raising `AssertionError` instead of returning the
two-element array `[0, 1]`. -/
theorem claim_C10_singleton_bucket_assert_fails :
    so.add .enone 0 = .ok (.eint 0) ∧
    so.add (.eint 0) 1 = .error .assertionError ∧
    so.add (.eint 0) 1 ≠ .ok (.earr [0, 1]) :=
  ⟨rfl, rfl, fun h => nomatch h⟩

end Utwutwb
